import Mathlib

/-!
Shallow embedding of `src/ml_training/real_data_collection_protocol.py`
(`AcademicVBTDataCollector.generate_sample_academic_dataset`).

Machine floats are modelled as exact rationals `ℚ`; every `np.random.*`
draw is modelled as a site-indexed oracle (`RandStream`) returning the sampled
value already transformed from a raw variate, with the support constraints
of the distribution collected in `RandStream.Valid`.  The wall clock read by
`datetime.now()` is an explicit input `now : ℚ` (a timestamp in days).
-/

/-- The three exercises, `exercises = ["squat", "bench", "deadlift"]`. -/
inductive Exercise
  | squat
  | bench
  | deadlift
deriving DecidableEq

/-- `np.random.normal mu sigma`: the draw is `mu + sigma * z` where `z` is the
standard-normal variate supplied by the random stream (support: all of ℝ). -/
def npNormal (mu sigma z : ℚ) : ℚ := mu + sigma * z

/-- `np.random.exponential scale`: `scale * e` where `e` is the standard
exponential variate supplied by the stream (support: `e ≥ 0`). -/
def npExponential (scale e : ℚ) : ℚ := scale * e

/-- `np.random.uniform a b`: `a + (b - a) * u` with `u ∈ [0, 1)` from the stream. -/
def npUniform (a b u : ℚ) : ℚ := a + (b - a) * u

/-- `np.clip x lo hi`, i.e. `min (max x lo) hi`. -/
def npClip (x lo hi : ℚ) : ℚ := min (max x lo) hi

/-- The seeded random stream (`np.random.seed(42)` fixes it), modelled as the
family of sampled variates indexed by the draw site: participant index `i`,
and for per-measurement draws also exercise, load percentage and rep number.
Two runs with the same seed consume the same stream, hence the same `RandStream`. -/
structure RandStream where
  zAge : ℕ → ℚ
  zBodyMass : ℕ → ℚ
  zHeight : ℕ → ℚ
  eTrainExp : ℕ → ℚ
  zSquat : ℕ → ℚ
  zBench : ℕ → ℚ
  zDeadlift : ℕ → ℚ
  zIndiv : ℕ → Exercise → ℚ → ℚ
  zPeak : ℕ → Exercise → ℚ → ℕ → ℚ
  zDur : ℕ → Exercise → ℚ → ℕ → ℚ
  zRom : ℕ → Exercise → ℚ → ℕ → ℚ
  zTech : ℕ → Exercise → ℚ → ℕ → ℚ
  uQuality : ℕ → Exercise → ℚ → ℕ → ℚ
  dDays : ℕ → Exercise → ℚ → ℕ → ℕ

/-- Support constraints of the distributions: a standard exponential variate is
nonnegative, `np.random.uniform` returns a value built from `u ∈ [0,1)`, and
`np.random.randint(0, 30)` returns an integer in `[0, 30)`. -/
def RandStream.Valid (r : RandStream) : Prop :=
  (∀ i, 0 ≤ r.eTrainExp i) ∧
  (∀ i ex l rep, 0 ≤ r.uQuality i ex l rep ∧ r.uQuality i ex l rep < 1) ∧
  (∀ i ex l rep, r.dDays i ex l rep < 30)

/-- Little-endian decimal digits of a natural number, with explicit fuel so the
recursion is structural (kernel-reducible). -/
def toDecDigitsAux : ℕ → ℕ → List ℕ
  | 0, _ => []
  | _ + 1, 0 => []
  | fuel + 1, n + 1 => (n + 1) % 10 :: toDecDigitsAux fuel ((n + 1) / 10)

/-- Little-endian decimal digits of `n` (empty for `0`). -/
def decDigits (n : ℕ) : List ℕ := toDecDigitsAux n n

/-- The digit list of the format `"%03d"`: decimal digits zero-padded to width 3.
Little-endian, so the zero padding sits at the most-significant end. -/
def pidDigits (i : ℕ) : List ℕ :=
  decDigits i ++ List.replicate (3 - (decDigits i).length) 0

/-- The character of a decimal digit. -/
def digitChar (d : ℕ) : Char := Char.ofNat (48 + d)

/-- The participant id `f"P{participant_id:03d}"`. -/
def pidString (i : ℕ) : String :=
  String.mk ('P' :: (pidDigits i).reverse.map digitChar)

/-- One row of the participants table (`participant_data`). -/
structure Participant where
  participant_id : String
  age : ℚ
  body_mass : ℚ
  height : ℚ
  training_experience : ℚ
  squat_1rm : ℚ
  bench_1rm : ℚ
  deadlift_1rm : ℚ
deriving DecidableEq

/-- The participant record synthesized for index `i` (lines 107–126). -/
def mkParticipant (r : RandStream) (i : ℕ) : Participant :=
  let age := npNormal 25 4 (r.zAge i)
  let body_mass := npNormal 75 12 (r.zBodyMass i)
  let height := npNormal 175 8 (r.zHeight i)
  let training_exp := npExponential 2 (r.eTrainExp i) + 0.5
  { participant_id := pidString i
    age := age
    body_mass := body_mass
    height := height
    training_experience := training_exp
    squat_1rm := body_mass * (1.2 + 0.05 * training_exp) + npNormal 0 10 (r.zSquat i)
    bench_1rm := body_mass * (1.0 + 0.03 * training_exp) + npNormal 0 8 (r.zBench i)
    deadlift_1rm := body_mass * (1.4 + 0.06 * training_exp) + npNormal 0 12 (r.zDeadlift i) }

/-- The dictionary lookup `participant_data[f"{exercise}_1rm"]`. -/
def Participant.exercise_1rm (p : Participant) : Exercise → ℚ
  | .squat => p.squat_1rm
  | .bench => p.bench_1rm
  | .deadlift => p.deadlift_1rm

/-- Velocity–load regression (lines 144–149): exercise-specific slope/intercept. -/
def baseVelocity : Exercise → ℚ → ℚ
  | .squat, load_pct => 1.79 - 0.0138 * load_pct
  | .bench, load_pct => 1.73 - 0.0157 * load_pct
  | .deadlift, load_pct => 1.65 - 0.0143 * load_pct

/-- `load_percentages = [50, 70, 85, 90, 95]`. -/
def loadPercentages : List ℚ := [50, 70, 85, 90, 95]

/-- The exercise list traversed for each participant. -/
def exercisesList : List Exercise := [.squat, .bench, .deadlift]

/-- `range(1, 4)`: the three rep numbers of a block. -/
def repsList : List ℕ := [1, 2, 3]

/-- One row of the measurements table (`measurement`, lines 180–199). -/
structure Measurement where
  participant_id : String
  session_date : ℚ
  exercise : Exercise
  load_kg : ℚ
  load_percent_1rm : ℚ
  rep_number : ℕ
  mean_concentric_velocity : ℚ
  peak_velocity : ℚ
  duration_concentric : ℚ
  range_of_motion : ℚ
  peak_force : ℚ
  mean_power : ℚ
  rate_of_force_development : ℚ
  technique_rating : ℚ
  data_quality : ℚ
  measurement_device : String
  sampling_rate : ℕ
  calibration_status : String
deriving DecidableEq

/-- The measurement synthesized for participant `p` (index `i`), exercise `ex`,
load percentage `load_pct` and rep `rep` (lines 136–199).  `individual_factor`
is indexed by `(i, ex, load_pct)` only: it is drawn once per block and shared
by the block's three reps. -/
def mkMeasurement (r : RandStream) (now : ℚ) (p : Participant) (i : ℕ) (ex : Exercise)
    (load_pct : ℚ) (rep : ℕ) : Measurement :=
  let exercise_1rm := p.exercise_1rm ex
  let absolute_load := exercise_1rm * (load_pct / 100)
  let base_velocity := baseVelocity ex load_pct
  let individual_factor := npNormal 1.0 0.12 (r.zIndiv i ex load_pct)
  let fatigue_factor := 1.0 - ((rep : ℚ) - 1) * 0.03
  let mean_velocity := max 0.1 (base_velocity * individual_factor * fatigue_factor)
  let peak_velocity := mean_velocity * npNormal 1.25 0.05 (r.zPeak i ex load_pct rep)
  let duration := npNormal 1.2 0.2 (r.zDur i ex load_pct rep)
  let rom := npNormal 0.65 0.08 (r.zRom i ex load_pct rep)
  let estimated_force := absolute_load * 9.81
  let power := estimated_force * mean_velocity
  let rfd := estimated_force / (duration * 0.3)
  let base_technique := 8.5 - (load_pct - 50) * 0.02
  let technique_score := npClip (npNormal base_technique 0.8 (r.zTech i ex load_pct rep)) 1 10
  { participant_id := p.participant_id
    session_date := now - (r.dDays i ex load_pct rep : ℚ)
    exercise := ex
    load_kg := absolute_load
    load_percent_1rm := load_pct
    rep_number := rep
    mean_concentric_velocity := mean_velocity
    peak_velocity := peak_velocity
    duration_concentric := duration
    range_of_motion := rom
    peak_force := estimated_force
    mean_power := power
    rate_of_force_development := rfd
    technique_rating := technique_score
    data_quality := npUniform 0.95 1.0 (r.uQuality i ex load_pct rep)
    measurement_device := "Linear Position Transducer"
    sampling_rate := 1000
    calibration_status := "passed" }

/-- `range(1, n_participants + 1)` as participant indices (empty when `n ≤ 0`). -/
def participantIndices (n : ℤ) : List ℕ :=
  (List.range n.toNat).map (· + 1)

/-- The participants table: one record per index, in traversal order. -/
def participantsTable (r : RandStream) (n : ℤ) : List Participant :=
  (participantIndices n).map (mkParticipant r)

/-- The measurements generated for one participant: exercises outer, then load
percentages, then the three reps (lines 130–201). -/
def measurementsFor (r : RandStream) (now : ℚ) (i : ℕ) : List Measurement :=
  let p := mkParticipant r i
  exercisesList.flatMap fun ex =>
    loadPercentages.flatMap fun load_pct =>
      repsList.map fun rep => mkMeasurement r now p i ex load_pct rep

/-- The measurements table in traversal order: participants outer. -/
def measurementsTable (r : RandStream) (now : ℚ) (n : ℤ) : List Measurement :=
  (participantIndices n).flatMap (measurementsFor r now)

/-- The two output tables of `generate_sample_academic_dataset`. -/
structure Dataset where
  participants : List Participant
  measurements : List Measurement
deriving DecidableEq

/-- The table-assembly stage of `generate_sample_academic_dataset(n_participants)`
(lines 99–205): the seeded stream `r` is fixed by `np.random.seed(42)`; `now` is
the wall-clock time the run reads through `datetime.now()`.  The complete run,
including the metadata construction — where a zero-iteration participant loop
leaves the loop-local `exercises` name unbound and the function crashes — is
`run_generate_sample_academic_dataset` below.  Serialization (CSV/JSON writing)
is an out-of-scope side effect. -/
def generate_sample_academic_dataset (r : RandStream) (now : ℚ) (n : ℤ) : Dataset :=
  { participants := participantsTable r n
    measurements := measurementsTable r now n }

/-- The `dataset_info` part of the metadata document (lines 211–219); the
remaining metadata entries are static configuration with no dependence on the
generated data. -/
structure Metadata where
  created : ℚ
  participants : ℕ
  measurements : ℕ
  exercises : List Exercise
  load_range_lo : ℚ
  load_range_hi : ℚ
deriving DecidableEq

/-- The Python diagnostic raised at line 218 when the metadata dict reads the
loop-local `exercises` name after a zero-iteration participant loop. -/
def unboundLocalExercises : String :=
  "UnboundLocalError: local variable exercises referenced before assignment"

/-- The complete run of `generate_sample_academic_dataset` (lines 92–250): the
tables are assembled (and written — an out-of-scope side effect), then the
metadata document is built.  `exercises` and `load_percentages` (lines 130–131)
are locals assigned inside the participant loop, so they are bound at the
metadata read (line 218) only if the loop body ran at least once; for a
non-positive count the function raises `UnboundLocalError` there instead of
returning. -/
def run_generate_sample_academic_dataset (r : RandStream) (now : ℚ) (n : ℤ) :
    Except String (Dataset × Metadata) :=
  let participants_df := participantsTable r n
  let measurements_df := measurementsTable r now n
  if participantIndices n = [] then
    .error unboundLocalExercises
  else
    .ok ({ participants := participants_df, measurements := measurements_df },
      { created := now
        participants := participants_df.length
        measurements := measurements_df.length
        exercises := exercisesList
        load_range_lo := (loadPercentages.min?).getD 0
        load_range_hi := (loadPercentages.max?).getD 0 })

/-! ### Auxiliary lemmas: participant-id formatting is injective -/

theorem ofDigits_toDecDigitsAux (fuel : ℕ) :
    ∀ n, n ≤ fuel → Nat.ofDigits 10 (toDecDigitsAux fuel n) = n := by
  induction fuel with
  | zero =>
    intro n hn
    interval_cases n
    simp [toDecDigitsAux, Nat.ofDigits]
  | succ fuel ih =>
    intro n hn
    match n with
    | 0 => simp [toDecDigitsAux, Nat.ofDigits]
    | m + 1 =>
      have hdiv : (m + 1) / 10 ≤ fuel := by
        have h10 : (m + 1) / 10 < m + 1 := Nat.div_lt_self (Nat.succ_pos m) (by norm_num)
        omega
      rw [toDecDigitsAux, Nat.ofDigits_cons, ih _ hdiv]
      omega

theorem mem_toDecDigitsAux (fuel : ℕ) :
    ∀ n d, d ∈ toDecDigitsAux fuel n → d < 10 := by
  induction fuel with
  | zero => intro n d hd; simp [toDecDigitsAux] at hd
  | succ fuel ih =>
    intro n d hd
    match n with
    | 0 => simp [toDecDigitsAux] at hd
    | m + 1 =>
      rw [toDecDigitsAux, List.mem_cons] at hd
      rcases hd with hd | hd
      · subst hd; exact Nat.mod_lt _ (by norm_num)
      · exact ih _ _ hd

theorem ofDigits_replicate_zero (k : ℕ) :
    Nat.ofDigits 10 (List.replicate k 0) = 0 := by
  induction k with
  | zero => simp [Nat.ofDigits]
  | succ k ih => simp [List.replicate_succ, Nat.ofDigits_cons, ih]

theorem ofDigits_pidDigits (i : ℕ) : Nat.ofDigits 10 (pidDigits i) = i := by
  rw [pidDigits, Nat.ofDigits_append, ofDigits_replicate_zero, decDigits,
    ofDigits_toDecDigitsAux i i le_rfl]
  ring

theorem mem_pidDigits (i d : ℕ) (hd : d ∈ pidDigits i) : d < 10 := by
  rw [pidDigits, List.mem_append] at hd
  rcases hd with hd | hd
  · exact mem_toDecDigitsAux i i d hd
  · have := List.eq_of_mem_replicate hd
    omega

theorem digitChar_toNat (d : ℕ) (hd : d < 10) : (digitChar d).toNat = 48 + d := by
  interval_cases d <;> decide

theorem pidString_injective : Function.Injective pidString := by
  intro i j h
  rw [pidString, pidString] at h
  have hdata : 'P' :: (pidDigits i).reverse.map digitChar =
      'P' :: (pidDigits j).reverse.map digitChar := congrArg String.data h
  rw [List.cons.injEq] at hdata
  have h2 := congrArg (List.map fun c => c.toNat - 48) hdata.2
  rw [List.map_map, List.map_map] at h2
  have hi : (pidDigits i).reverse.map ((fun c => c.toNat - 48) ∘ digitChar) =
      (pidDigits i).reverse.map id := by
    refine List.map_congr_left fun d hd => ?_
    have hd10 : d < 10 := mem_pidDigits i d (List.mem_reverse.mp hd)
    simp [Function.comp, digitChar_toNat d hd10]
  have hj : (pidDigits j).reverse.map ((fun c => c.toNat - 48) ∘ digitChar) =
      (pidDigits j).reverse.map id := by
    refine List.map_congr_left fun d hd => ?_
    have hd10 : d < 10 := mem_pidDigits j d (List.mem_reverse.mp hd)
    simp [Function.comp, digitChar_toNat d hd10]
  rw [hi, hj, List.map_id, List.map_id, List.reverse_inj] at h2
  have h3 := congrArg (Nat.ofDigits 10) h2
  rwa [ofDigits_pidDigits, ofDigits_pidDigits] at h3

/-! ### Auxiliary lemmas: membership in the generated tables -/

theorem mem_participantIndices (n : ℤ) (i : ℕ) :
    i ∈ participantIndices n ↔ 1 ≤ i ∧ i ≤ n.toNat := by
  simp only [participantIndices, List.mem_map, List.mem_range]
  constructor
  · rintro ⟨k, hk, rfl⟩; omega
  · rintro ⟨h1, h2⟩; exact ⟨i - 1, by omega, by omega⟩

theorem mem_participantsTable (r : RandStream) (n : ℤ) (p : Participant) :
    p ∈ participantsTable r n ↔
      ∃ i, (1 ≤ i ∧ i ≤ n.toNat) ∧ p = mkParticipant r i := by
  simp only [participantsTable, List.mem_map, mem_participantIndices]
  constructor
  · rintro ⟨i, hi, rfl⟩; exact ⟨i, hi, rfl⟩
  · rintro ⟨i, hi, rfl⟩; exact ⟨i, hi, rfl⟩

theorem mem_measurementsTable (r : RandStream) (now : ℚ) (n : ℤ) (m : Measurement) :
    m ∈ measurementsTable r now n ↔
      ∃ i, (1 ≤ i ∧ i ≤ n.toNat) ∧ ∃ ex ∈ exercisesList, ∃ l ∈ loadPercentages,
        ∃ rep ∈ repsList, m = mkMeasurement r now (mkParticipant r i) i ex l rep := by
  simp only [measurementsTable, measurementsFor, List.mem_flatMap, List.mem_map,
    mem_participantIndices]
  constructor
  · rintro ⟨i, hi, ex, hex, l, hl, rep, hrep, rfl⟩
    exact ⟨i, hi, ex, hex, l, hl, rep, hrep, rfl⟩
  · rintro ⟨i, hi, ex, hex, l, hl, rep, hrep, rfl⟩
    exact ⟨i, hi, ex, hex, l, hl, rep, hrep, rfl⟩

/-! ### A concrete valid stream, and row-count lemmas -/

/-- A concrete random stream: every normal variate `0` (so every normal draw
returns its mean), exponential variate `0`, uniform variate `0`, day offset `0`. -/
def r0 : RandStream :=
  { zAge := fun _ => 0
    zBodyMass := fun _ => 0
    zHeight := fun _ => 0
    eTrainExp := fun _ => 0
    zSquat := fun _ => 0
    zBench := fun _ => 0
    zDeadlift := fun _ => 0
    zIndiv := fun _ _ _ => 0
    zPeak := fun _ _ _ _ => 0
    zDur := fun _ _ _ _ => 0
    zRom := fun _ _ _ _ => 0
    zTech := fun _ _ _ _ => 0
    uQuality := fun _ _ _ _ => 0
    dDays := fun _ _ _ _ => 0 }

theorem r0_valid : r0.Valid :=
  ⟨fun _ => le_refl 0,
   fun _ _ _ _ => ⟨le_refl 0, by norm_num [r0]⟩,
   fun _ _ _ _ => by norm_num [r0]⟩

theorem participantIndices_length (n : ℤ) : (participantIndices n).length = n.toNat := by
  simp [participantIndices]

theorem participantIndices_nodup (n : ℤ) : (participantIndices n).Nodup :=
  (List.nodup_range n.toNat).map fun a b h => by omega

theorem measurementsFor_length (r : RandStream) (now : ℚ) (i : ℕ) :
    (measurementsFor r now i).length = 45 := rfl

theorem measurementsTable_length (r : RandStream) (now : ℚ) (n : ℤ) :
    (measurementsTable r now n).length = 45 * n.toNat := by
  rw [measurementsTable, List.length_flatMap]
  have h : List.map (List.length ∘ measurementsFor r now) (participantIndices n) =
      List.map (fun _ => 45) (participantIndices n) :=
    List.map_congr_left fun i _ => measurementsFor_length r now i
  rw [h]
  simp [participantIndices_length, Nat.mul_comm]

/-! ### The (participant, exercise, load, rep) key of a measurement row -/

/-- The identifying key of one measurement row. -/
def measurementKey (m : Measurement) : String × Exercise × ℚ × ℕ :=
  (m.participant_id, m.exercise, m.load_percent_1rm, m.rep_number)

/-- The 45 (exercise, load, rep) combinations traversed for each participant. -/
def comboList : List (Exercise × ℚ × ℕ) :=
  exercisesList.flatMap fun ex =>
    loadPercentages.flatMap fun l => repsList.map fun rep => (ex, l, rep)

theorem comboList_nodup : comboList.Nodup := by decide

theorem measurementsFor_map_key (r : RandStream) (now : ℚ) (i : ℕ) :
    (measurementsFor r now i).map measurementKey =
      comboList.map fun t => (pidString i, t) := rfl

theorem measurementsTable_map_key (r : RandStream) (now : ℚ) (n : ℤ) :
    (measurementsTable r now n).map measurementKey =
      (participantIndices n).flatMap fun i => comboList.map fun t => (pidString i, t) := by
  rw [measurementsTable, List.map_flatMap]
  exact List.flatMap_congr fun i _ => measurementsFor_map_key r now i

theorem measurementsTable_key_nodup (r : RandStream) (now : ℚ) (n : ℤ) :
    ((measurementsTable r now n).map measurementKey).Nodup := by
  rw [measurementsTable_map_key]
  refine List.nodup_flatMap.mpr ⟨fun i _ => ?_, ?_⟩
  · exact comboList_nodup.map fun t t' h => by
      simpa using congrArg Prod.snd h
  · refine List.Pairwise.imp ?_ (participantIndices_nodup n)
    intro i j hij
    intro a hai haj
    rw [List.mem_map] at hai haj
    obtain ⟨t, _, rfl⟩ := hai
    obtain ⟨t', _, heq⟩ := haj
    exact hij (pidString_injective (congrArg Prod.fst heq).symm)

/-! ### Shared concrete example row -/

/-- The first measurement row generated for participant 1 under `r0`. -/
def mSquat50r1 : Measurement := mkMeasurement r0 0 (mkParticipant r0 1) 1 .squat 50 1

/-- C2: every generated measurement has `mean_concentric_velocity ≥ 0.1` (the
`max` floor of line 159) and `technique_rating ∈ [1, 10]` (the `np.clip` of
line 175); and no sample is ever rejected or regenerated: the measurement row
count is the same for every random stream and clock. -/
theorem C2_bounds_by_clamping (r : RandStream) (now : ℚ) (n : ℤ) :
    (∀ m ∈ (generate_sample_academic_dataset r now n).measurements,
      (0.1 : ℚ) ≤ m.mean_concentric_velocity ∧
      1 ≤ m.technique_rating ∧ m.technique_rating ≤ 10) ∧
    (∀ (r' : RandStream) (now' : ℚ),
      (generate_sample_academic_dataset r' now' n).measurements.length =
        (generate_sample_academic_dataset r now n).measurements.length) := by
  constructor
  · intro m hm
    change m ∈ measurementsTable r now n at hm
    rw [mem_measurementsTable] at hm
    obtain ⟨i, hi, ex, _, l, _, rep, _, rfl⟩ := hm
    refine ⟨?_, ?_, ?_⟩
    · exact le_max_left _ _
    · show (1 : ℚ) ≤ npClip _ 1 10
      rw [npClip]
      exact le_min (le_max_right _ _) (by norm_num)
    · show npClip _ 1 10 ≤ (10 : ℚ)
      exact min_le_right _ _
  · intro r' now'
    show (measurementsTable r' now' n).length = (measurementsTable r now n).length
    rw [measurementsTable_length, measurementsTable_length]

theorem mSquat50r1_mem :
    mSquat50r1 ∈ (generate_sample_academic_dataset r0 0 1).measurements := by
  change mSquat50r1 ∈ measurementsTable r0 0 1
  rw [mem_measurementsTable]
  exact ⟨1, ⟨le_rfl, by norm_num⟩, .squat, by decide, 50, by decide, 1, by decide, rfl⟩

theorem C2_witness :
    (0.1 : ℚ) ≤ mSquat50r1.mean_concentric_velocity ∧
    1 ≤ mSquat50r1.technique_rating ∧ mSquat50r1.technique_rating ≤ 10 :=
  (C2_bounds_by_clamping r0 0 1).1 mSquat50r1 mSquat50r1_mem

/-- Exactly-one-occurrence helper: if the images of a list under `f` are
pairwise distinct and `b` is among them, exactly one element maps to `b`. -/
theorem length_filter_eq_one_of_nodup_map {α β : Type} [DecidableEq β] (f : α → β)
    (b : β) : ∀ (l : List α), (l.map f).Nodup → b ∈ l.map f →
      (l.filter fun a => decide (f a = b)).length = 1 := by
  intro l
  induction l with
  | nil => intro _ hb; simp at hb
  | cons x t ih =>
    intro hn hb
    rw [List.map_cons, List.nodup_cons] at hn
    rw [List.filter_cons]
    by_cases hfx : f x = b
    · have hfilter : t.filter (fun a => decide (f a = b)) = [] := by
        rw [List.filter_eq_nil_iff]
        intro a ha
        simp only [decide_eq_true_eq]
        intro hab
        refine hn.1 ?_
        have : f x = f a := by rw [hfx, hab]
        rw [this]
        exact List.mem_map_of_mem f ha
      simp [hfx, hfilter]
    · have hbt : b ∈ t.map f := by
        rw [List.map_cons, List.mem_cons] at hb
        rcases hb with h | h
        · exact absurd h.symm hfx
        · exact h
      simp [hfx, ih hn.2 hbt]

/-- C5: generation produces exactly `45 * n` measurement rows, and exactly one
row per (participant, exercise, load-percentage, repetition) combination over
the fixed sets `{squat, bench, deadlift} × {50, 70, 85, 90, 95} × {1, 2, 3}`. -/
theorem C5_row_counts (r : RandStream) (now : ℚ) (n : ℤ) :
    (generate_sample_academic_dataset r now n).measurements.length = 45 * n.toNat ∧
    ∀ i, 1 ≤ i → i ≤ n.toNat →
      ∀ ex ∈ exercisesList, ∀ l ∈ loadPercentages, ∀ rep ∈ repsList,
        ((generate_sample_academic_dataset r now n).measurements.filter fun m =>
          decide (measurementKey m = (pidString i, ex, l, rep))).length = 1 := by
  refine ⟨measurementsTable_length r now n, ?_⟩
  intro i h1 h2 ex hex l hl rep hrep
  have hnodup := measurementsTable_key_nodup r now n
  have hmem : (pidString i, ex, l, rep) ∈ (measurementsTable r now n).map measurementKey := by
    rw [measurementsTable_map_key, List.mem_flatMap]
    refine ⟨i, (mem_participantIndices n i).mpr ⟨h1, h2⟩, ?_⟩
    rw [List.mem_map]
    refine ⟨(ex, l, rep), ?_, rfl⟩
    rw [comboList, List.mem_flatMap]
    exact ⟨ex, hex, List.mem_flatMap.mpr ⟨l, hl, List.mem_map.mpr ⟨rep, hrep, rfl⟩⟩⟩
  exact length_filter_eq_one_of_nodup_map measurementKey _ _ hnodup hmem

theorem C5_witness :
    (generate_sample_academic_dataset r0 0 1).measurements.length = 45 ∧
    ((generate_sample_academic_dataset r0 0 1).measurements.filter fun m =>
      decide (measurementKey m = (pidString 1, Exercise.squat, 50, 1))).length = 1 :=
  ⟨(C5_row_counts r0 0 1).1,
   (C5_row_counts r0 0 1).2 1 le_rfl (by norm_num) Exercise.squat (by decide)
     50 (by decide) 1 (by decide)⟩

/-- C4: the participant ids of the participants table are pairwise distinct,
and every measurement's participant id belongs to exactly one participant row. -/
theorem C4_referential_integrity (r : RandStream) (now : ℚ) (n : ℤ) :
    ((generate_sample_academic_dataset r now n).participants.map
      Participant.participant_id).Nodup ∧
    ∀ m ∈ (generate_sample_academic_dataset r now n).measurements,
      ∃! p, p ∈ (generate_sample_academic_dataset r now n).participants ∧
        p.participant_id = m.participant_id := by
  have hmap : (participantsTable r n).map Participant.participant_id =
      (participantIndices n).map pidString := by
    rw [participantsTable, List.map_map]
    rfl
  have hnodup : ((participantsTable r n).map Participant.participant_id).Nodup := by
    rw [hmap]
    exact (participantIndices_nodup n).map pidString_injective
  refine ⟨hnodup, ?_⟩
  intro m hm
  change m ∈ measurementsTable r now n at hm
  rw [mem_measurementsTable] at hm
  obtain ⟨i, hi, ex, _, l, _, rep, _, rfl⟩ := hm
  refine ⟨mkParticipant r i, ⟨?_, rfl⟩, ?_⟩
  · change mkParticipant r i ∈ participantsTable r n
    rw [mem_participantsTable]
    exact ⟨i, hi, rfl⟩
  · rintro q ⟨hq, hqid⟩
    change q ∈ participantsTable r n at hq
    rw [mem_participantsTable] at hq
    obtain ⟨j, hj, rfl⟩ := hq
    have : pidString j = pidString i := hqid
    rw [pidString_injective this]

theorem C4_witness :
    ((generate_sample_academic_dataset r0 0 1).participants.map
      Participant.participant_id).Nodup ∧
    ∃! p, p ∈ (generate_sample_academic_dataset r0 0 1).participants ∧
      p.participant_id = mSquat50r1.participant_id :=
  ⟨(C4_referential_integrity r0 0 1).1,
   (C4_referential_integrity r0 0 1).2 mSquat50r1 mSquat50r1_mem⟩

/-- C6: every generated measurement satisfies the exact kinetic relations, with
the one-rep-max taken from the participant row carrying the same id:
`load_kg = 1RM * load% / 100`, `peak_force = load_kg * 9.81`,
`mean_power = peak_force * mean_velocity`, and
`rate_of_force_development = peak_force / (duration * 0.3)`. -/
theorem C6_arithmetic_relations (r : RandStream) (now : ℚ) (n : ℤ) :
    ∀ m ∈ (generate_sample_academic_dataset r now n).measurements,
      ∃ p ∈ (generate_sample_academic_dataset r now n).participants,
        m.participant_id = p.participant_id ∧
        m.load_kg = p.exercise_1rm m.exercise * m.load_percent_1rm / 100 ∧
        m.peak_force = m.load_kg * 9.81 ∧
        m.mean_power = m.peak_force * m.mean_concentric_velocity ∧
        m.rate_of_force_development = m.peak_force / (m.duration_concentric * 0.3) := by
  intro m hm
  change m ∈ measurementsTable r now n at hm
  rw [mem_measurementsTable] at hm
  obtain ⟨i, hi, ex, _, l, _, rep, _, rfl⟩ := hm
  refine ⟨mkParticipant r i, ?_, rfl, ?_, rfl, rfl, rfl⟩
  · change mkParticipant r i ∈ participantsTable r n
    rw [mem_participantsTable]
    exact ⟨i, hi, rfl⟩
  · show (mkParticipant r i).exercise_1rm ex * (l / 100) =
      (mkParticipant r i).exercise_1rm ex * l / 100
    ring

theorem C6_witness :
    ∃ p ∈ (generate_sample_academic_dataset r0 0 1).participants,
      mSquat50r1.participant_id = p.participant_id ∧
      mSquat50r1.load_kg = p.exercise_1rm mSquat50r1.exercise *
        mSquat50r1.load_percent_1rm / 100 ∧
      mSquat50r1.peak_force = mSquat50r1.load_kg * 9.81 ∧
      mSquat50r1.mean_power = mSquat50r1.peak_force * mSquat50r1.mean_concentric_velocity ∧
      mSquat50r1.rate_of_force_development =
        mSquat50r1.peak_force / (mSquat50r1.duration_concentric * 0.3) :=
  C6_arithmetic_relations r0 0 1 mSquat50r1 mSquat50r1_mem

/-! ### C3: within-block fatigue monotonicity -/

/-- Monotonicity of the floored velocity in the rep number, for every possible
value `a` of `base_velocity * individual_factor`. -/
theorem fatigue_mono (a : ℚ) (rep1 rep2 : ℕ) (_h1 : 1 ≤ rep1) (h12 : rep1 ≤ rep2)
    (h3 : rep2 ≤ 3) :
    max 0.1 (a * (1.0 - ((rep2 : ℚ) - 1) * 0.03)) ≤
      max 0.1 (a * (1.0 - ((rep1 : ℚ) - 1) * 0.03)) := by
  have hc2 : ((rep2 : ℚ)) ≤ 3 := by exact_mod_cast h3
  have hc12 : ((rep1 : ℚ)) ≤ (rep2 : ℚ) := by exact_mod_cast h12
  have hf2 : (0 : ℚ) ≤ 1.0 - ((rep2 : ℚ) - 1) * 0.03 := by nlinarith
  rcases le_or_lt a 0 with ha | ha
  · have h20 : a * (1.0 - ((rep2 : ℚ) - 1) * 0.03) ≤ 0.1 := by nlinarith
    rw [max_eq_left h20]
    exact le_max_left _ _
  · have hmul : a * (1.0 - ((rep2 : ℚ) - 1) * 0.03) ≤
        a * (1.0 - ((rep1 : ℚ) - 1) * 0.03) := by nlinarith
    exact max_le_max le_rfl hmul

/-- C3: in any fixed (participant, exercise, load%) block of the generated
table, `mean_concentric_velocity` is non-increasing in `rep_number`, for every
random stream — the individual factor is shared by the block and the fatigue
factor decreases, and the `max 0.1` floor preserves the ordering. -/
theorem C3_velocity_nonincreasing (r : RandStream) (now : ℚ) (n : ℤ) :
    ∀ m1 ∈ (generate_sample_academic_dataset r now n).measurements,
      ∀ m2 ∈ (generate_sample_academic_dataset r now n).measurements,
        m1.participant_id = m2.participant_id → m1.exercise = m2.exercise →
        m1.load_percent_1rm = m2.load_percent_1rm → m1.rep_number ≤ m2.rep_number →
        m2.mean_concentric_velocity ≤ m1.mean_concentric_velocity := by
  intro m1 hm1 m2 hm2 hpid hex hload hrep
  change m1 ∈ measurementsTable r now n at hm1
  change m2 ∈ measurementsTable r now n at hm2
  rw [mem_measurementsTable] at hm1 hm2
  obtain ⟨i1, hi1, ex1, hex1, l1, hl1, rep1, hrep1, rfl⟩ := hm1
  obtain ⟨i2, hi2, ex2, hex2, l2, hl2, rep2, hrep2, rfl⟩ := hm2
  have hieq : i1 = i2 := pidString_injective hpid
  subst hieq
  have hexeq : ex1 = ex2 := hex
  subst hexeq
  have hleq : l1 = l2 := hload
  subst hleq
  have hb1 : 1 ≤ rep1 ∧ rep1 ≤ 3 := by
    simp only [repsList, List.mem_cons, List.not_mem_nil, or_false] at hrep1
    rcases hrep1 with rfl | rfl | rfl <;> omega
  have hb2 : 1 ≤ rep2 ∧ rep2 ≤ 3 := by
    simp only [repsList, List.mem_cons, List.not_mem_nil, or_false] at hrep2
    rcases hrep2 with rfl | rfl | rfl <;> omega
  exact fatigue_mono (baseVelocity ex1 l1 * npNormal 1.0 0.12 (r.zIndiv i1 ex1 l1))
    rep1 rep2 hb1.1 hrep hb2.2

/-- The rep-2 measurement of the same block as `mSquat50r1`. -/
def mSquat50r2 : Measurement := mkMeasurement r0 0 (mkParticipant r0 1) 1 .squat 50 2

theorem mSquat50r2_mem :
    mSquat50r2 ∈ (generate_sample_academic_dataset r0 0 1).measurements := by
  change mSquat50r2 ∈ measurementsTable r0 0 1
  rw [mem_measurementsTable]
  exact ⟨1, ⟨le_rfl, by norm_num⟩, .squat, by decide, 50, by decide, 2, by decide, rfl⟩

theorem C3_witness :
    mSquat50r2.mean_concentric_velocity ≤ mSquat50r1.mean_concentric_velocity :=
  C3_velocity_nonincreasing r0 0 1 mSquat50r1 mSquat50r1_mem mSquat50r2 mSquat50r2_mem
    rfl rfl rfl (by decide)

/-! ### C7: training experience and one-rep-max values -/

/-- The participant row of index 1 under `r0`. -/
def pOne : Participant := mkParticipant r0 1

theorem pOne_mem : pOne ∈ (generate_sample_academic_dataset r0 0 1).participants := by
  change pOne ∈ participantsTable r0 1
  rw [mem_participantsTable]
  exact ⟨1, ⟨le_rfl, by norm_num⟩, rfl⟩

/-- A stream whose squat-noise draw is −100 standard deviations: every other
site is as in `r0`.  All support constraints still hold. -/
def rNeg1rm : RandStream := { r0 with zSquat := fun _ => -100 }

/-- C7 counterexample: the claim "all three estimated one-rep-max values are
positive, for every random stream" is false: under the valid stream `rNeg1rm`
the generated participant 1 has a negative `squat_1rm`, and the noise term is
an unbounded Gaussian, not a bounded one. -/
theorem C7_counterexample :
    rNeg1rm.Valid ∧
    mkParticipant rNeg1rm 1 ∈ (generate_sample_academic_dataset rNeg1rm 0 1).participants ∧
    (mkParticipant rNeg1rm 1).squat_1rm < 0 := by
  refine ⟨⟨fun _ => le_refl 0, fun _ _ _ _ => ⟨le_refl 0, by norm_num [rNeg1rm, r0]⟩,
    fun _ _ _ _ => by norm_num [rNeg1rm, r0]⟩, ?_, ?_⟩
  · change mkParticipant rNeg1rm 1 ∈ participantsTable rNeg1rm 1
    rw [mem_participantsTable]
    exact ⟨1, ⟨le_rfl, by norm_num⟩, rfl⟩
  · show npNormal 75 12 (rNeg1rm.zBodyMass 1) *
        (1.2 + 0.05 * (npExponential 2 (rNeg1rm.eTrainExp 1) + 0.5)) +
        npNormal 0 10 (rNeg1rm.zSquat 1) < 0
    norm_num [npNormal, npExponential, rNeg1rm, r0]

/-- C7 (amended): `training_experience` is strictly positive for every valid
random stream, and each one-rep-max is the deterministic linear function of
`body_mass` and `training_experience` plus an (unbounded) Gaussian noise term;
positivity of the one-rep-max values themselves is not guaranteed. -/
theorem C7_experience_pos_1rm_linear (r : RandStream) (hr : r.Valid) (now : ℚ) (n : ℤ) :
    ∀ p ∈ (generate_sample_academic_dataset r now n).participants,
      0 < p.training_experience ∧
      ∃ i, p.squat_1rm =
            p.body_mass * (1.2 + 0.05 * p.training_experience) + 10 * r.zSquat i ∧
          p.bench_1rm =
            p.body_mass * (1.0 + 0.03 * p.training_experience) + 8 * r.zBench i ∧
          p.deadlift_1rm =
            p.body_mass * (1.4 + 0.06 * p.training_experience) + 12 * r.zDeadlift i := by
  intro p hp
  change p ∈ participantsTable r n at hp
  rw [mem_participantsTable] at hp
  obtain ⟨i, hi, rfl⟩ := hp
  have hb : (mkParticipant r i).body_mass = npNormal 75 12 (r.zBodyMass i) := rfl
  have ht : (mkParticipant r i).training_experience =
      npExponential 2 (r.eTrainExp i) + 0.5 := rfl
  have hs : (mkParticipant r i).squat_1rm =
      npNormal 75 12 (r.zBodyMass i) *
        (1.2 + 0.05 * (npExponential 2 (r.eTrainExp i) + 0.5)) +
        npNormal 0 10 (r.zSquat i) := rfl
  have hbe : (mkParticipant r i).bench_1rm =
      npNormal 75 12 (r.zBodyMass i) *
        (1.0 + 0.03 * (npExponential 2 (r.eTrainExp i) + 0.5)) +
        npNormal 0 8 (r.zBench i) := rfl
  have hd : (mkParticipant r i).deadlift_1rm =
      npNormal 75 12 (r.zBodyMass i) *
        (1.4 + 0.06 * (npExponential 2 (r.eTrainExp i) + 0.5)) +
        npNormal 0 12 (r.zDeadlift i) := rfl
  constructor
  · rw [ht]
    have he := hr.1 i
    rw [npExponential]
    nlinarith
  · refine ⟨i, ?_, ?_, ?_⟩
    · rw [hs, hb, ht]
      simp only [npNormal, npExponential]
      ring
    · rw [hbe, hb, ht]
      simp only [npNormal, npExponential]
      ring
    · rw [hd, hb, ht]
      simp only [npNormal, npExponential]
      ring

theorem C7_witness :
    0 < pOne.training_experience ∧
    ∃ i, pOne.squat_1rm =
          pOne.body_mass * (1.2 + 0.05 * pOne.training_experience) + 10 * r0.zSquat i ∧
        pOne.bench_1rm =
          pOne.body_mass * (1.0 + 0.03 * pOne.training_experience) + 8 * r0.zBench i ∧
        pOne.deadlift_1rm =
          pOne.body_mass * (1.4 + 0.06 * pOne.training_experience) + 12 * r0.zDeadlift i :=
  C7_experience_pos_1rm_linear r0 r0_valid 0 1 pOne pOne_mem

/-! ### C8: non-positive participant count -/

/-- C8 counterexample: the original claim is false for `n = 0`: the failure is
not an InvalidParameter rejection issued before generation begins.  The run
proceeds through the (zero-iteration) participant loop and the table assembly
— both output tables are built (empty) and written — and only then crashes,
accidentally, with `UnboundLocalError` when the metadata dict (line 218) reads
the loop-local `exercises` name that was never bound.  No InvalidParameter
diagnostic exists anywhere in the function, and the seed is hard-coded, not a
validated parameter. -/
theorem C8_counterexample :
    participantsTable r0 0 = [] ∧ measurementsTable r0 0 0 = [] ∧
    run_generate_sample_academic_dataset r0 0 0 =
      Except.error unboundLocalExercises :=
  ⟨rfl, rfl, rfl⟩

/-- C8 (amended): a non-positive participant count is not validated: the
participant loop runs zero times, the two (empty) tables are still assembled
and written, and the function then fails accidentally with an
`UnboundLocalError` when the metadata construction reads the loop-local
`exercises` name (line 218) — a crash at the metadata step, after generation,
not an InvalidParameter rejection before it. -/
theorem C8_unbound_local_on_nonpositive (r : RandStream) (now : ℚ) (n : ℤ)
    (hn : n ≤ 0) :
    participantsTable r n = [] ∧ measurementsTable r now n = [] ∧
    run_generate_sample_academic_dataset r now n =
      Except.error unboundLocalExercises := by
  have h0 : n.toNat = 0 := Int.toNat_of_nonpos hn
  have hempty : participantIndices n = [] := by
    rw [participantIndices, h0]
    rfl
  refine ⟨?_, ?_, ?_⟩
  · rw [participantsTable, hempty]
    rfl
  · rw [measurementsTable, hempty]
    rfl
  · simp only [run_generate_sample_academic_dataset]
    rw [if_pos hempty]

theorem C8_witness :
    participantsTable r0 (-5) = [] ∧ measurementsTable r0 0 (-5) = [] ∧
    run_generate_sample_academic_dataset r0 0 (-5) =
      Except.error unboundLocalExercises :=
  C8_unbound_local_on_nonpositive r0 0 (-5) (by norm_num)

/-! ### C9: no degeneracy assertion exists -/

/-- A stream whose duration draw is −10 standard deviations (all other sites
as in `r0`): the drawn `duration_concentric` is negative. -/
def rNegDur : RandStream := { r0 with zDur := fun _ _ _ _ => -10 }

/-- C9 counterexample: the claim "generation aborts with a fatal assertion when
a quantity is out of physical bounds" is false: under the valid stream
`rNegDur` a row with negative `duration_concentric` is emitted in the output
table, with no check and no diagnostic anywhere in the generator. -/
theorem C9_counterexample :
    rNegDur.Valid ∧
    (mkMeasurement rNegDur 0 (mkParticipant rNegDur 1) 1 .squat 50 1).duration_concentric
      < 0 ∧
    mkMeasurement rNegDur 0 (mkParticipant rNegDur 1) 1 .squat 50 1 ∈
      (generate_sample_academic_dataset rNegDur 0 1).measurements := by
  refine ⟨⟨fun _ => le_refl 0, fun _ _ _ _ => ⟨le_refl 0, by norm_num [rNegDur, r0]⟩,
    fun _ _ _ _ => by norm_num [rNegDur, r0]⟩, ?_, ?_⟩
  · show npNormal 1.2 0.2 (rNegDur.zDur 1 .squat 50 1) < 0
    norm_num [npNormal, rNegDur]
  · change _ ∈ measurementsTable rNegDur 0 1
    rw [mem_measurementsTable]
    exact ⟨1, ⟨le_rfl, by norm_num⟩, .squat, by decide, 50, by decide, 1, by decide, rfl⟩

/-- C9 (amended): generation performs no bounds check at all: for every stream
(in particular ones producing physically impossible values) it returns normally
with all `45 * n` rows, and each row records the drawn `duration_concentric`
and `range_of_motion` unchanged — there is no fatal assertion and no
diagnostic distinct from the intentional velocity floor and technique clip. -/
theorem C9_no_degeneracy_check (r : RandStream) (now : ℚ) (n : ℤ) (i : ℕ)
    (h1 : 1 ≤ i) (h2 : i ≤ n.toNat) (ex : Exercise) (hex : ex ∈ exercisesList)
    (l : ℚ) (hl : l ∈ loadPercentages) (rep : ℕ) (hrep : rep ∈ repsList) :
    (generate_sample_academic_dataset r now n).measurements.length = 45 * n.toNat ∧
    mkMeasurement r now (mkParticipant r i) i ex l rep ∈
      (generate_sample_academic_dataset r now n).measurements ∧
    (mkMeasurement r now (mkParticipant r i) i ex l rep).duration_concentric =
      npNormal 1.2 0.2 (r.zDur i ex l rep) ∧
    (mkMeasurement r now (mkParticipant r i) i ex l rep).range_of_motion =
      npNormal 0.65 0.08 (r.zRom i ex l rep) := by
  refine ⟨measurementsTable_length r now n, ?_, rfl, rfl⟩
  change _ ∈ measurementsTable r now n
  rw [mem_measurementsTable]
  exact ⟨i, ⟨h1, h2⟩, ex, hex, l, hl, rep, hrep, rfl⟩

theorem C9_witness :
    (generate_sample_academic_dataset rNegDur 0 1).measurements.length = 45 ∧
    mkMeasurement rNegDur 0 (mkParticipant rNegDur 1) 1 .squat 50 1 ∈
      (generate_sample_academic_dataset rNegDur 0 1).measurements ∧
    (mkMeasurement rNegDur 0 (mkParticipant rNegDur 1) 1 .squat 50 1).duration_concentric =
      npNormal 1.2 0.2 (rNegDur.zDur 1 .squat 50 1) ∧
    (mkMeasurement rNegDur 0 (mkParticipant rNegDur 1) 1 .squat 50 1).range_of_motion =
      npNormal 0.65 0.08 (rNegDur.zRom 1 .squat 50 1) :=
  C9_no_degeneracy_check rNegDur 0 1 1 le_rfl (by norm_num) .squat (by decide)
    50 (by decide) 1 (by decide)

/-! ### C10: peak velocity is not guaranteed to exceed mean velocity -/

/-- A stream whose peak-multiplier draw is −100 standard deviations: the
multiplier `1.25 + 0.05·(−100) = −3.75` is below 1. -/
def rLowPeak : RandStream := { r0 with zPeak := fun _ _ _ _ => -100 }

/-- C10: the peak multiplier is an unguarded `Normal(1.25, 0.05)` draw, so for
some valid random stream a generated row has `peak_velocity` strictly below its
`mean_concentric_velocity`, and the row is emitted without error or
adjustment. -/
theorem C10_peak_below_mean :
    ∃ r : RandStream, r.Valid ∧
      ∃ m ∈ (generate_sample_academic_dataset r 0 1).measurements,
        m.peak_velocity < m.mean_concentric_velocity := by
  refine ⟨rLowPeak,
    ⟨fun _ => le_refl 0, fun _ _ _ _ => ⟨le_refl 0, by norm_num [rLowPeak, r0]⟩,
     fun _ _ _ _ => by norm_num [rLowPeak, r0]⟩, ?_⟩
  refine ⟨mkMeasurement rLowPeak 0 (mkParticipant rLowPeak 1) 1 .squat 50 1, ?_, ?_⟩
  · change _ ∈ measurementsTable rLowPeak 0 1
    rw [mem_measurementsTable]
    exact ⟨1, ⟨le_rfl, by norm_num⟩, .squat, by decide, 50, by decide, 1, by decide, rfl⟩
  · have hpe : (mkMeasurement rLowPeak 0 (mkParticipant rLowPeak 1) 1 .squat 50 1).peak_velocity =
        (mkMeasurement rLowPeak 0 (mkParticipant rLowPeak 1) 1
          .squat 50 1).mean_concentric_velocity * npNormal 1.25 0.05 (-100) := rfl
    have hM : (0.1 : ℚ) ≤ (mkMeasurement rLowPeak 0 (mkParticipant rLowPeak 1) 1
        .squat 50 1).mean_concentric_velocity := le_max_left _ _
    rw [hpe]
    have hc : npNormal 1.25 0.05 (-100) = -3.75 := by norm_num [npNormal]
    rw [hc]
    nlinarith

/-! ### C1: determinism modulo the wall clock -/

/-- A measurement row with the wall-clock-derived `session_date` cleared. -/
def stripSessionDate (m : Measurement) : Measurement := { m with session_date := 0 }

/-- C1 counterexample: two runs with the same (hard-coded) seed and count but
started at different wall-clock times produce different measurement tables:
`session_date` embeds `datetime.now()`, so the tables differ in that field. -/
theorem C1_counterexample :
    (generate_sample_academic_dataset r0 0 1).measurements ≠
      (generate_sample_academic_dataset r0 1 1).measurements := by
  intro h
  have h3 : (measurementsTable r0 0 1).head? = (measurementsTable r0 1 1).head? :=
    congrArg List.head? h
  rw [show (measurementsTable r0 0 1).head? =
      some (mkMeasurement r0 0 (mkParticipant r0 1) 1 .squat 50 1) from rfl,
    show (measurementsTable r0 1 1).head? =
      some (mkMeasurement r0 1 (mkParticipant r0 1) 1 .squat 50 1) from rfl] at h3
  have h4 := congrArg Measurement.session_date (Option.some.inj h3)
  have h5 : (0 : ℚ) - (r0.dDays 1 .squat 50 1 : ℚ) =
      1 - (r0.dDays 1 .squat 50 1 : ℚ) := h4
  norm_num [r0] at h5

/-- C1 (amended): with the seed fixed by `np.random.seed(42)`, re-running with
the same participant count reproduces the participants table byte-for-byte and
the measurements table byte-for-byte in every field except `session_date`,
which embeds the wall-clock time of the run; full equality of the measurements
tables holds exactly when both runs read the same clock. -/
theorem C1_determinism_modulo_clock (r : RandStream) (n : ℤ) (now1 now2 : ℚ) :
    (generate_sample_academic_dataset r now1 n).participants =
      (generate_sample_academic_dataset r now2 n).participants ∧
    (generate_sample_academic_dataset r now1 n).measurements.map stripSessionDate =
      (generate_sample_academic_dataset r now2 n).measurements.map stripSessionDate := by
  refine ⟨rfl, ?_⟩
  show (measurementsTable r now1 n).map stripSessionDate =
    (measurementsTable r now2 n).map stripSessionDate
  rw [measurementsTable, measurementsTable, List.map_flatMap, List.map_flatMap]
  exact List.flatMap_congr fun i _ => rfl
